import Mathlib

/-!
Shallow embedding of the local-deployment subsystem of CareCanvas AI
(src/src/lib/local-deployment.ts and src/src/app/api/projects/[id]/route.ts).

Filesystem effects are modelled explicitly: the set of directories under
generated-apps is a list of names, written files are a list of paths, and
fallible OS calls are driven by explicit success parameters.  Times are
integers in milliseconds, processes are opaque numeric handles.
-/

set_option maxHeartbeats 1000000

namespace CareCanvas

/-! Project records and the in-memory registry (a Map from id to record). -/

inductive Status where
  | creating
  | installing
  | starting
  | running
  | stopped
  | error
deriving DecidableEq

structure GeneratedProject where
  id : String
  name : String
  path : String
  port : Option Nat
  process : Option Nat
  status : Status
  url : Option String
  errMsg : Option String
  createdAt : Int
deriving DecidableEq

/-- The global registry Map, embedded as an association list keyed by id. -/
abbrev Registry := List (String × GeneratedProject)

/-- Map.get: first binding for the key, if any. -/
def regGet : Registry → String → Option GeneratedProject
  | [], _ => none
  | (k, v) :: rest, id => if k = id then some v else regGet rest id

/-- Map.set: replace the binding for the key, or append it. -/
def regSet : Registry → String → GeneratedProject → Registry
  | [], id, p => [(id, p)]
  | (k, v) :: rest, id, p =>
    if k = id then (id, p) :: rest else (k, v) :: regSet rest id p

/-- Map.delete: remove every binding for the key. -/
def regErase : Registry → String → Registry
  | [], _ => []
  | (k, v) :: rest, id =>
    if k = id then regErase rest id else (k, v) :: regErase rest id

/-! Port allocator: findAvailablePort probes ports startPort, startPort+1, ...
for at most 100 candidates, returning the first for which the availability
probe (bind then immediately release) succeeds.  The probe outcome is the
function argument avail. -/

def defaultStartPort : Nat := 3001

def findPortAux (avail : Nat → Bool) (port : Nat) : Nat → Option Nat
  | 0 => none
  | Nat.succ n => if avail port then some port else findPortAux avail (port + 1) n

def findAvailablePort (avail : Nat → Bool) (startPort : Nat) : Except String Nat :=
  match findPortAux avail startPort 100 with
  | some p => Except.ok p
  | none => Except.error "No available ports found"

/-! generateProjectName: title.toLowerCase().replace(/[^a-z0-9\s]/g,
'').replace(/\s+/g, '-').substring(0, 50).  Strings are embedded as lists of
characters; toLowerCase is modelled per character. -/

/-- The characters matched by the JavaScript regular-expression class \s. -/
def jsWhitespace : List Char :=
  [' ', '\t', '\n', Char.ofNat 0x0b, Char.ofNat 0x0c, '\r',
   Char.ofNat 0x00a0, Char.ofNat 0x1680,
   Char.ofNat 0x2000, Char.ofNat 0x2001, Char.ofNat 0x2002, Char.ofNat 0x2003,
   Char.ofNat 0x2004, Char.ofNat 0x2005, Char.ofNat 0x2006, Char.ofNat 0x2007,
   Char.ofNat 0x2008, Char.ofNat 0x2009, Char.ofNat 0x200a,
   Char.ofNat 0x2028, Char.ofNat 0x2029, Char.ofNat 0x202f,
   Char.ofNat 0x205f, Char.ofNat 0x3000, Char.ofNat 0xfeff]

def jsIsSpace (c : Char) : Bool := jsWhitespace.contains c

/-- A character surviving the filter replace(/[^a-z0-9\s]/g, ''). -/
def keepChar (c : Char) : Bool := c.isLower || c.isDigit || jsIsSpace c

/-- replace(/\s+/g, '-'): each maximal whitespace run becomes one hyphen.
The Boolean records whether the previous character was inside a run. -/
def collapseSpacesAux : Bool → List Char → List Char
  | _, [] => []
  | prevSpace, c :: rest =>
    if jsIsSpace c then
      if prevSpace then collapseSpacesAux true rest
      else '-' :: collapseSpacesAux true rest
    else c :: collapseSpacesAux false rest

def generateProjectName (title : List Char) : List Char :=
  (collapseSpacesAux false ((title.map Char.toLower).filter keepChar)).take 50

/-- One decimal digit character. -/
def digitChar (d : Nat) : Char :=
  if d = 0 then '0' else if d = 1 then '1' else if d = 2 then '2'
  else if d = 3 then '3' else if d = 4 then '4' else if d = 5 then '5'
  else if d = 6 then '6' else if d = 7 then '7' else if d = 8 then '8' else '9'

/-- Decimal representation of a natural number (Date.now() rendered by the
template literal in the id), with explicit fuel for structural recursion. -/
def natToCharsAux : Nat → Nat → List Char → List Char
  | 0, _, acc => acc
  | Nat.succ fuel, n, acc =>
    if n < 10 then digitChar (n % 10) :: acc
    else natToCharsAux fuel (n / 10) (digitChar (n % 10) :: acc)

def natToChars (n : Nat) : List Char := natToCharsAux (n + 1) n []

/-- The project id: sanitized name, a hyphen, then the creation timestamp. -/
def projectIdChars (title : List Char) (ts : Nat) : List Char :=
  generateProjectName title ++ ('-' :: natToChars ts)

def projectIdStr (title : List Char) (ts : Nat) : String :=
  String.mk (projectIdChars title ts)

/-- A character allowed in a sanitized project name. -/
def isNameChar (c : Char) : Bool := c.isLower || c.isDigit || c == '-'

/-! Theorems: port allocator (C5). -/

lemma findPortAux_some_iff (avail : Nat → Bool) :
    ∀ n s p, findPortAux avail s n = some p ↔
      (s ≤ p ∧ p < s + n ∧ avail p = true ∧
        ∀ q, s ≤ q → q < p → avail q = false) := by
  intro n
  induction n with
  | zero =>
    intro s p
    simp only [findPortAux]
    constructor
    · intro h; cases h
    · rintro ⟨h1, h2, -⟩; omega
  | succ n ih =>
    intro s p
    simp only [findPortAux]
    cases hs : avail s with
    | true =>
      rw [if_pos rfl]
      constructor
      · intro h
        injection h with h
        subst h
        exact ⟨le_refl s, by omega, hs, fun q hq1 hq2 => absurd hq1 (by omega)⟩
      · rintro ⟨h1, h2, h3, h4⟩
        by_cases hps : p = s
        · exact congrArg some hps.symm
        · have hcontra := h4 s (le_refl s) (by omega)
          rw [hs] at hcontra
          simp at hcontra
    | false =>
      rw [if_neg (by simp)]
      rw [ih (s + 1) p]
      constructor
      · rintro ⟨h1, h2, h3, h4⟩
        refine ⟨by omega, by omega, h3, fun q hq1 hq2 => ?_⟩
        by_cases hqs : q = s
        · subst hqs; exact hs
        · exact h4 q (by omega) hq2
      · rintro ⟨h1, h2, h3, h4⟩
        have hps : p ≠ s := by
          intro e; subst e; rw [h3] at hs; simp at hs
        exact ⟨by omega, by omega, h3, fun q hq1 hq2 => h4 q (by omega) hq2⟩

lemma findPortAux_none_iff (avail : Nat → Bool) :
    ∀ n s, findPortAux avail s n = none ↔
      ∀ q, s ≤ q → q < s + n → avail q = false := by
  intro n
  induction n with
  | zero =>
    intro s
    simp only [findPortAux]
    constructor
    · intro _ q hq1 hq2; omega
    · intro _; trivial
  | succ n ih =>
    intro s
    simp only [findPortAux]
    cases hs : avail s with
    | true =>
      rw [if_pos rfl]
      constructor
      · intro h; cases h
      · intro h
        have hcontra := h s (le_refl s) (by omega)
        rw [hs] at hcontra
        simp at hcontra
    | false =>
      rw [if_neg (by simp)]
      rw [ih (s + 1)]
      constructor
      · intro h q hq1 hq2
        by_cases hqs : q = s
        · subst hqs; exact hs
        · exact h q (by omega) (by omega)
      · intro h q hq1 hq2
        exact h q (by omega) (by omega)

/-- C5: findAvailablePort returns the smallest port in the range
[startPort, startPort + 100) that the availability probe accepts, and fails
with the no-ports error exactly when all 100 candidates are unavailable. -/
theorem findAvailablePort_correct (avail : Nat → Bool) (startPort p : Nat) :
    (findAvailablePort avail startPort = Except.ok p ↔
      (startPort ≤ p ∧ p < startPort + 100 ∧ avail p = true ∧
        ∀ q, startPort ≤ q → q < p → avail q = false)) ∧
    (findAvailablePort avail startPort = Except.error "No available ports found" ↔
      ∀ q, startPort ≤ q → q < startPort + 100 → avail q = false) := by
  unfold findAvailablePort
  constructor
  · cases h : findPortAux avail startPort 100 with
    | none =>
      constructor
      · intro hh; cases hh
      · intro hh
        rw [findPortAux_none_iff] at h
        rcases hh with ⟨h1, h2, h3, -⟩
        rw [h p h1 h2] at h3
        cases h3
    | some q =>
      rw [findPortAux_some_iff] at h
      constructor
      · intro hh
        injection hh with hh
        subst hh
        exact h
      · rintro ⟨h1, h2, h3, h4⟩
        rcases h with ⟨g1, g2, g3, g4⟩
        have hpq : p = q := by
          by_contra hne
          rcases Nat.lt_or_ge p q with hlt | hge
          · have hc := g4 p h1 hlt; rw [h3] at hc; simp at hc
          · have hlt : q < p := by omega
            have hc := h4 q g1 hlt; rw [g3] at hc; simp at hc
        rw [hpq]
  · cases h : findPortAux avail startPort 100 with
    | none =>
      rw [findPortAux_none_iff] at h
      exact ⟨fun _ => h, fun _ => rfl⟩
    | some q =>
      rw [findPortAux_some_iff] at h
      constructor
      · intro hh; cases hh
      · intro hh
        rcases h with ⟨g1, g2, g3, -⟩
        rw [hh q g1 g2] at g3
        cases g3

/-- C5 witness: with only port 3003 available in the scanned range, the
allocator returns 3003, and with no port available it returns the error. -/
theorem findAvailablePort_correct_witness :
    findAvailablePort (fun p => p = 3003) 3001 = Except.ok 3003 ∧
    findAvailablePort (fun _ => false) 3001 =
      Except.error "No available ports found" := by
  constructor
  · exact ((findAvailablePort_correct (fun p => p = 3003) 3001 3003).1).2
      ⟨by omega, by omega, by decide, by intro q h1 h2; simp; omega⟩
  · exact ((findAvailablePort_correct (fun _ => false) 3001 3003).2).2
      (fun q _ _ => rfl)

/-! Theorems: project-name sanitization (C10). -/

lemma collapseSpacesAux_chars (b : Bool) (l : List Char)
    (hl : ∀ c ∈ l, keepChar c = true) :
    ∀ c ∈ collapseSpacesAux b l, isNameChar c = true := by
  induction l generalizing b with
  | nil => intro c hc; simp [collapseSpacesAux] at hc
  | cons d rest ih =>
    intro c hc
    have hd := hl d (List.mem_cons_self d rest)
    have hrest : ∀ c ∈ rest, keepChar c = true :=
      fun c hc => hl c (List.mem_cons_of_mem d hc)
    simp only [collapseSpacesAux] at hc
    cases hsp : jsIsSpace d with
    | true =>
      rw [if_pos (by rw [hsp])] at hc
      cases b with
      | true =>
        rw [if_pos rfl] at hc
        exact ih true hrest c hc
      | false =>
        rw [if_neg (by simp)] at hc
        simp only [List.mem_cons] at hc
        rcases hc with hc | hc
        · subst hc; decide
        · exact ih true hrest c hc
    | false =>
      rw [if_neg (by rw [hsp]; simp)] at hc
      simp only [List.mem_cons] at hc
      rcases hc with hc | hc
      · subst hc
        unfold keepChar at hd
        unfold isNameChar
        rw [hsp] at hd
        simp only [Bool.or_false] at hd
        rw [hd]
        simp
      · exact ih false hrest c hc

lemma generateProjectName_chars (title : List Char) :
    ∀ c ∈ generateProjectName title, isNameChar c = true := by
  intro c hc
  unfold generateProjectName at hc
  have hc2 := List.take_subset 50 _ hc
  refine collapseSpacesAux_chars false _ ?_ c hc2
  intro d hd
  exact List.of_mem_filter hd

lemma digitChar_isDigit (d : Nat) : (digitChar d).isDigit = true := by
  unfold digitChar
  repeat' split
  all_goals decide

lemma natToCharsAux_chars (P : Char → Prop)
    (hdig : ∀ d, P (digitChar d)) :
    ∀ fuel n acc, (∀ c ∈ acc, P c) → ∀ c ∈ natToCharsAux fuel n acc, P c := by
  intro fuel
  induction fuel with
  | zero => intro n acc hacc c hc; exact hacc c hc
  | succ fuel ih =>
    intro n acc hacc c hc
    simp only [natToCharsAux] at hc
    by_cases hn : n < 10
    · rw [if_pos hn] at hc
      simp only [List.mem_cons] at hc
      rcases hc with hc | hc
      · subst hc; exact hdig _
      · exact hacc c hc
    · rw [if_neg hn] at hc
      refine ih (n / 10) (digitChar (n % 10) :: acc) ?_ c hc
      intro d hd
      simp only [List.mem_cons] at hd
      rcases hd with hd | hd
      · subst hd; exact hdig _
      · exact hacc d hd

lemma isNameChar_not_sep (c : Char) (h : isNameChar c = true) :
    c ≠ '/' ∧ c ≠ '\\' := by
  constructor
  · intro e; subst e; exact absurd h (by decide)
  · intro e; subst e; exact absurd h (by decide)

lemma isDigit_not_sep (c : Char) (h : c.isDigit = true) :
    c ≠ '/' ∧ c ≠ '\\' := by
  constructor
  · intro e; subst e; exact absurd h (by decide)
  · intro e; subst e; exact absurd h (by decide)

/-- C10: generateProjectName yields at most 50 characters, all of them
lowercase ASCII letters, digits or hyphens; hence the derived project id
(name, hyphen, timestamp) contains no path separator, so the staged
directory generated-apps/id sits directly under the generated-apps root. -/
theorem generateProjectName_safe (title : List Char) (ts : Nat) :
    (generateProjectName title).length ≤ 50 ∧
    (∀ c ∈ generateProjectName title, isNameChar c = true) ∧
    (∀ c ∈ projectIdChars title ts, c ≠ '/' ∧ c ≠ '\\') := by
  refine ⟨?_, generateProjectName_chars title, ?_⟩
  · unfold generateProjectName
    exact List.length_take_le 50 _
  · intro c hc
    unfold projectIdChars at hc
    rw [List.mem_append] at hc
    rcases hc with hc | hc
    · exact isNameChar_not_sep c (generateProjectName_chars title c hc)
    · simp only [List.mem_cons] at hc
      rcases hc with hc | hc
      · subst hc; exact ⟨by decide, by decide⟩
      · refine isDigit_not_sep c ?_
        unfold natToChars at hc
        refine natToCharsAux_chars (fun c => c.isDigit = true)
          (fun d => digitChar_isDigit d) (ts + 1) ts [] ?_ c hc
        intro d hd
        simp at hd

/-! stopProject, getProject and the HTTP route handlers over them.
stopProject kills the process of a found record and marks it stopped; it
throws (models: returns Except.error) when the id is unknown. -/

def stopProject (r : Registry) (id : String) : Except String Registry :=
  match regGet r id with
  | none => Except.error "Project not found"
  | some project =>
    match project.process with
    | some _ => Except.ok (regSet r id { project with status := Status.stopped })
    | none => Except.ok r

def getProject (r : Registry) (id : String) : Option GeneratedProject :=
  regGet r id

def getRunningProjects (r : Registry) : List GeneratedProject :=
  List.map Prod.snd r

/-- The JSON responses of the api/projects/[id] route handlers. -/
inductive ApiResult where
  | okMsg (msg : String)
  | okProject (p : GeneratedProject)
  | notFound
  | badRequest (msg : String)
  | serverError (msg : String)
deriving DecidableEq

/-- GET /api/projects/[id]. -/
def routeGET (r : Registry) (id : String) : ApiResult :=
  match getProject r id with
  | none => ApiResult.notFound
  | some p => ApiResult.okProject p

/-- PATCH /api/projects/[id] with an action field; a thrown exception is
caught and becomes a 500 serverError response. -/
def routePATCH (r : Registry) (id : String) (action : String) :
    ApiResult × Registry :=
  match getProject r id with
  | none => (ApiResult.notFound, r)
  | some _ =>
    if action = "stop" then
      match stopProject r id with
      | Except.ok r2 => (ApiResult.okMsg "Project stopped successfully", r2)
      | Except.error e => (ApiResult.serverError e, r)
    else (ApiResult.badRequest "Invalid action. Supported actions: stop", r)

/-- Registry plus the directories under generated-apps. -/
structure SystemState where
  registry : Registry
  dirs : List String
deriving DecidableEq

/-- DELETE /api/projects/[id]: stop when running, then best-effort remove
the directory path.join(projectsDir, project.name) - note: name, not id -
and respond with success.  The registry record is never removed. -/
def routeDELETE (s : SystemState) (id : String) : ApiResult × SystemState :=
  match getProject s.registry id with
  | none => (ApiResult.notFound, s)
  | some project =>
    match (if project.status = Status.running then stopProject s.registry id
           else Except.ok s.registry) with
    | Except.error e => (ApiResult.serverError e, s)
    | Except.ok reg1 =>
      (ApiResult.okMsg "Project deleted successfully",
       { registry := reg1, dirs := s.dirs.filter (fun d => d ≠ project.name) })

/-! Dev-server launch.  The source startDevServer wraps its work in a
Promise executor whose first step is the spawn call itself; the options
object of that call spreads process.env, but the name process resolves to
the block-scoped const process being defined by that very statement, which
is still in its temporal dead zone, so evaluating the options throws a
ReferenceError.  The executor throw rejects the promise before any child
process is spawned, any listener is attached or the 30-second timer is
set; the readiness, timeout and exit-code handling below the spawn call is
unreachable. -/

def startsWithChars : List Char → List Char → Bool
  | _, [] => true
  | [], _ :: _ => false
  | c :: cs, d :: ds => c == d && startsWithChars cs ds

/-- The ReferenceError raised while evaluating the spawn options (the
shadowing binding process read in its temporal dead zone). -/
def devServerTdzError : String :=
  "ReferenceError: Cannot access process before initialization"

/-- Observable effects of one startDevServer call: whether a child process
was spawned, whether the 30-second timer was set, whether anything was
killed, and how the returned promise settled. -/
structure DevLaunch where
  spawned : Bool
  timerSet : Bool
  killed : Bool
  result : Except String Nat

/-- startDevServer: every call rejects immediately with the ReferenceError
thrown while evaluating the spawn options; nothing is spawned, no timer is
set and nothing is killed. -/
def startDevServer (_projectPath : String) (_port : Nat) : DevLaunch :=
  { spawned := false, timerSet := false, killed := false,
    result := Except.error devServerTdzError }

/-! The deploy pipeline.  Filesystem and subprocess outcomes are supplied
by a DeployEnv; the trace records every status value stored into the
registry for the new record, in order. -/

structure DeployEnv where
  structureOk : Bool
  writeOk : Nat → Bool
  widgetListing : Except String (List String)
  installOk : Bool
  portAvail : Nat → Bool

def writeProjectFilesAux (writeOk : Nat → Bool) :
    Nat → List (String × String) → List String × Except String Unit
  | _, [] => ([], Except.ok ())
  | i, (fp, _) :: rest =>
    if writeOk i then
      match writeProjectFilesAux writeOk (i + 1) rest with
      | (ws, res) => (fp :: ws, res)
    else ([], Except.error ("write failed: " ++ fp))

/-- writeProjectFiles: writes each bundle entry in order; the first
filesystem error aborts the loop and propagates; files already written
stay on disk. -/
def writeProjectFiles (writeOk : Nat → Bool) (pkg : List (String × String)) :
    List String × Except String Unit :=
  writeProjectFilesAux writeOk 0 pkg

def endsWithChars (s suffix : List Char) : Bool :=
  startsWithChars s.reverse suffix.reverse

/-- copyWidgetLibrary: lists the widget source directory and copies the
.tsx and .ts files; every error is caught and only logged, so the function
always returns normally (second component: the logged error, if any). -/
def copyWidgetLibrary (listing : Except String (List String)) :
    List String × Option String :=
  match listing with
  | Except.error e => ([], some e)
  | Except.ok files =>
    (files.filter
      (fun f => endsWithChars f.data ".tsx".data || endsWithChars f.data ".ts".data),
     none)

structure DeployResult where
  registry : Registry
  trace : List Status
  files : List String
  widgetFiles : List String
  hasCloseHandler : Bool
  result : Except String GeneratedProject

/-- The catch block of deployLocally: mark the record error, store the
message, keep the record registered and re-throw. -/
def deployFail (reg0 : Registry) (pid : String) (p : GeneratedProject)
    (trace : List Status) (files wfiles : List String) (msg : String) :
    DeployResult :=
  { registry := regSet reg0 pid { p with status := Status.error, errMsg := some msg },
    trace := trace ++ [Status.error], files := files, widgetFiles := wfiles,
    hasCloseHandler := false, result := Except.error msg }

def deployLocally (env : DeployEnv) (reg0 : Registry) (formTitle : List Char)
    (timestamp : Nat) (pkg : List (String × String)) : DeployResult :=
  let pid := projectIdStr formTitle timestamp
  let projPath := "generated-apps/" ++ pid
  let p0 : GeneratedProject :=
    { id := pid, name := String.mk formTitle,
      path := projPath, port := none, process := none,
      status := Status.creating, url := none, errMsg := none,
      createdAt := (timestamp : Int) }
  if env.structureOk = false then
    deployFail reg0 pid p0 [Status.creating] [] [] "mkdir failed"
  else
    match writeProjectFiles env.writeOk pkg with
    | (written, Except.error msg) =>
      deployFail reg0 pid p0 [Status.creating] written [] msg
    | (written, Except.ok _) =>
      let wcopy := copyWidgetLibrary env.widgetListing
      let p1 := { p0 with status := Status.installing }
      if env.installOk = false then
        deployFail reg0 pid p1 [Status.creating, Status.installing]
          written wcopy.1 "npm install failed"
      else
        match findAvailablePort env.portAvail defaultStartPort with
        | Except.error msg =>
          deployFail reg0 pid p1 [Status.creating, Status.installing]
            written wcopy.1 msg
        | Except.ok port =>
          let p2 := { p1 with
            port := some port,
            url := some ("http://localhost:" ++ toString port),
            status := Status.starting }
          match (startDevServer projPath port).result with
          | Except.error msg =>
            deployFail reg0 pid p2
              [Status.creating, Status.installing, Status.starting]
              written wcopy.1 msg
          | Except.ok hdl =>
            let p3 := { p2 with
              process := some hdl,
              status := Status.running }
            { registry := regSet reg0 pid p3,
              trace := [Status.creating, Status.installing,
                        Status.starting, Status.running],
              files := written, widgetFiles := wcopy.1,
              hasCloseHandler := true, result := Except.ok p3 }

/-- The close listener attached (only) after a successful deploy: when the
dev-server process exits on its own, the record goes to stopped (the
process handle and url fields are left as they are). -/
def closeEvent (res : DeployResult) : DeployResult :=
  if res.hasCloseHandler then
    match res.result with
    | Except.ok p =>
      { res with
          registry := regSet res.registry p.id { p with status := Status.stopped },
          trace := res.trace ++ [Status.stopped] }
    | Except.error _ => res
  else res

/-! The reaper: cleanupOldProjects lists generated-apps and, for each
listed directory whose id is registered and strictly older than maxAge,
kills the process if present, deletes the registry entry and removes the
directory. -/

def defaultMaxAge : Int := 24 * 60 * 60 * 1000

structure CleanupState where
  registry : Registry
  dirs : List String
  killed : List Nat
deriving DecidableEq

/-- The kill-if-live step of the sweep: record the killed handle. -/
def killAdd (killed : List Nat) : Option Nat → List Nat
  | some h => killed ++ [h]
  | none => killed

def cleanupAux (now maxAge : Int) : List String → CleanupState → CleanupState
  | [], st => st
  | pid :: rest, st =>
    match regGet st.registry pid with
    | some p =>
      if now - p.createdAt > maxAge then
        cleanupAux now maxAge rest
          { registry := regErase st.registry pid,
            dirs := st.dirs.filter (fun d => d ≠ pid),
            killed := killAdd st.killed p.process }
      else cleanupAux now maxAge rest st
    | none => cleanupAux now maxAge rest st

def cleanupOldProjects (now maxAge : Int) (st : CleanupState) : CleanupState :=
  cleanupAux now maxAge st.dirs st

/-! Registry lemmas. -/

lemma regGet_regSet_self (r : Registry) (id : String) (p : GeneratedProject) :
    regGet (regSet r id p) id = some p := by
  induction r with
  | nil => simp [regSet, regGet]
  | cons e rest ih =>
    obtain ⟨k, v⟩ := e
    by_cases hk : k = id
    · subst hk; simp [regSet, regGet]
    · simp only [regSet, regGet, if_neg hk]
      exact ih

lemma mem_regSet (r : Registry) (id : String) (p : GeneratedProject)
    (e : String × GeneratedProject) :
    e ∈ regSet r id p → e = (id, p) ∨ e ∈ r := by
  induction r with
  | nil =>
    intro h
    simp only [regSet, List.mem_singleton] at h
    exact Or.inl h
  | cons f rest ih =>
    obtain ⟨k, v⟩ := f
    intro h
    by_cases hk : k = id
    · subst hk
      rw [regSet, if_pos rfl] at h
      cases h with
      | head => exact Or.inl rfl
      | tail b h => exact Or.inr (List.mem_cons_of_mem _ h)
    · rw [regSet, if_neg hk] at h
      cases h with
      | head => exact Or.inr (List.mem_cons_self _ _)
      | tail b h =>
        rcases ih h with h2 | h2
        · exact Or.inl h2
        · exact Or.inr (List.mem_cons_of_mem _ h2)

lemma regGet_regErase_self (r : Registry) (id : String) :
    regGet (regErase r id) id = none := by
  induction r with
  | nil => simp [regErase, regGet]
  | cons e rest ih =>
    obtain ⟨k, v⟩ := e
    by_cases hk : k = id
    · subst hk; simp only [regErase, if_pos rfl]; exact ih
    · simp only [regErase, if_neg hk, regGet, if_neg hk]
      exact ih

lemma regGet_regErase_ne (r : Registry) (pid id : String) (h : pid ≠ id) :
    regGet (regErase r pid) id = regGet r id := by
  induction r with
  | nil => simp [regErase, regGet]
  | cons e rest ih =>
    obtain ⟨k, v⟩ := e
    by_cases hk : k = pid
    · subst hk
      simp only [regErase, if_pos rfl, regGet, if_neg h]
      exact ih
    · simp only [regErase, if_neg hk, regGet]
      by_cases hk2 : k = id
      · simp [hk2]
      · simp only [if_neg hk2]
        exact ih

/-! C1 - the DELETE route at a concrete registered project.  The route
answers success but leaves the registry record in place (it never deletes
it) and removes the directory named by project.name, not project.id, so
the directory generated-apps/my-form-1754072914117 also survives. -/

def c1proj : GeneratedProject :=
  { id := "my-form-1754072914117", name := "My Form",
    path := "generated-apps/my-form-1754072914117",
    port := none, process := none, status := Status.stopped,
    url := none, errMsg := none, createdAt := 1754072914117 }

def c1state : SystemState :=
  { registry := [("my-form-1754072914117", c1proj)],
    dirs := ["my-form-1754072914117"] }

/-- C1: code bug.  A successful delete request on the registered project
my-form-1754072914117 answers success, yet a subsequent get still finds
the record (the registry entry was never removed) and the backing
directory named by the project id is still listed (the route removes the
directory named by project.name instead). -/
theorem deleteRoute_leaves_all_traces :
    (routeDELETE c1state "my-form-1754072914117").1 =
      ApiResult.okMsg "Project deleted successfully" ∧
    getProject (routeDELETE c1state "my-form-1754072914117").2.registry
      "my-form-1754072914117" = some c1proj ∧
    "my-form-1754072914117" ∈ (routeDELETE c1state "my-form-1754072914117").2.dirs := by
  refine ⟨rfl, rfl, ?_⟩
  decide

/-! C3 - unknown ids.  The three route handlers answer 404 not-found
without touching state; the library function stopProject itself throws. -/

/-- C3 counterexample: stop applied to an unknown id does throw - the
library stopProject raises the Project-not-found error instead of
returning a benign result. -/
theorem stopProject_unknown_id_throws :
    stopProject [] "ghost" = Except.error "Project not found" := rfl

/-- C3 amended: for ids absent from the registry the GET, PATCH and DELETE
handlers return a not-found result without raising, but the library-level
stopProject throws a Project-not-found exception; the PATCH route only
avoids that exception by checking existence before calling stopProject. -/
theorem unknown_id_not_found (r : Registry) (dirs : List String) (id act : String)
    (h : regGet r id = none) :
    routeGET r id = ApiResult.notFound ∧
    routePATCH r id act = (ApiResult.notFound, r) ∧
    (routeDELETE { registry := r, dirs := dirs } id).1 = ApiResult.notFound ∧
    stopProject r id = Except.error "Project not found" := by
  unfold routeGET routePATCH routeDELETE stopProject getProject
  rw [h]
  exact ⟨rfl, rfl, rfl, rfl⟩

/-- C3 amended, witness at the empty registry and the id ghost. -/
theorem unknown_id_not_found_witness :
    routeGET [] "ghost" = ApiResult.notFound ∧
    routePATCH [] "ghost" "stop" = (ApiResult.notFound, []) ∧
    (routeDELETE { registry := [], dirs := [] } "ghost").1 = ApiResult.notFound ∧
    stopProject [] "ghost" = Except.error "Project not found" :=
  unknown_id_not_found [] [] "ghost" "stop" rfl

/-! C2 - process handles are not cleared on stop. -/

def c2proj : GeneratedProject :=
  { id := "app-1", name := "App", path := "generated-apps/app-1",
    port := some 3001, process := some 42, status := Status.running,
    url := some "http://localhost:3001", errMsg := none, createdAt := 0 }

def c2stopped : GeneratedProject := { c2proj with status := Status.stopped }

/-- C2 counterexample: after an explicit stop of the running project app-1
the registry record has status stopped while its process handle (42) and
url are still set, so a record with the handle set need not have status
starting or running, and the stop transition does not clear handle or url. -/
theorem stopProject_keeps_handle_cex :
    (match stopProject [("app-1", c2proj)] "app-1" with
     | Except.ok r => regGet r "app-1"
     | Except.error _ => none) = some c2stopped ∧
    c2stopped.process = some 42 ∧
    c2stopped.status = Status.stopped ∧
    c2stopped.url = some "http://localhost:3001" := by
  refine ⟨?_, rfl, rfl, rfl⟩
  decide

/-! The shape of every deployLocally outcome: the dev-server launch faults
unconditionally, so every deployment goes through the single catch block:
error recorded on the registered record, no close handler, and a trace
that is an error-free, running-free prefix closed by error. -/

lemma deploy_shape (env : DeployEnv) (reg0 : Registry) (title : List Char)
    (ts : Nat) (pkg : List (String × String)) :
    ∃ p msg,
      (deployLocally env reg0 title ts pkg).result = Except.error msg ∧
      (deployLocally env reg0 title ts pkg).registry =
        regSet reg0 (projectIdStr title ts) p ∧
      p.status = Status.error ∧ p.errMsg = some msg ∧ p.process = none ∧
      (∃ pre, (deployLocally env reg0 title ts pkg).trace = pre ++ [Status.error] ∧
        Status.error ∉ pre ∧ Status.running ∉ pre) ∧
      (deployLocally env reg0 title ts pkg).hasCloseHandler = false := by
  unfold deployLocally
  split
  · exact ⟨_, _, rfl, rfl, rfl, rfl, rfl,
      ⟨[Status.creating], rfl, by decide, by decide⟩, rfl⟩
  · split
    · exact ⟨_, _, rfl, rfl, rfl, rfl, rfl,
        ⟨[Status.creating], rfl, by decide, by decide⟩, rfl⟩
    · split
      · exact ⟨_, _, rfl, rfl, rfl, rfl, rfl,
          ⟨[Status.creating, Status.installing], rfl, by decide, by decide⟩, rfl⟩
      · split
        · exact ⟨_, _, rfl, rfl, rfl, rfl, rfl,
            ⟨[Status.creating, Status.installing], rfl, by decide, by decide⟩, rfl⟩
        · exact ⟨_, _, rfl, rfl, rfl, rfl, rfl,
            ⟨[Status.creating, Status.installing, Status.starting], rfl,
              by decide, by decide⟩, rfl⟩

/-- The handle invariant the code actually maintains: a record carrying a
process handle is running or stopped (never creating, installing, starting
or error). -/
def handleInv (p : GeneratedProject) : Prop :=
  p.process.isSome = true → p.status = Status.running ∨ p.status = Status.stopped

/-- C2 amended: stopping a found record with a live process kills it and
sets status stopped but keeps the process handle and url unchanged; the
handle is attached only together with status running, so every operation
(deploy, stop, spontaneous exit) preserves the weaker invariant that a
record with a handle set is running or stopped. -/
theorem stop_keeps_handle :
    (∀ (r : Registry) (id : String) (p : GeneratedProject) (h : Nat),
       regGet r id = some p → p.process = some h →
       stopProject r id =
         Except.ok (regSet r id { p with status := Status.stopped })) ∧
    (∀ (env : DeployEnv) (reg0 : Registry) (title : List Char) (ts : Nat)
       (pkg : List (String × String)),
       (∀ e ∈ reg0, handleInv e.2) →
       ∀ e ∈ (deployLocally env reg0 title ts pkg).registry, handleInv e.2) ∧
    (∀ (r : Registry) (id : String) (r2 : Registry),
       (∀ e ∈ r, handleInv e.2) → stopProject r id = Except.ok r2 →
       ∀ e ∈ r2, handleInv e.2) ∧
    (∀ res : DeployResult,
       (∀ e ∈ res.registry, handleInv e.2) →
       ∀ e ∈ (closeEvent res).registry, handleInv e.2) := by
  refine ⟨?_, ?_, ?_, ?_⟩
  · intro r id p h hget hproc
    simp only [stopProject, hget, hproc]
  · intro env reg0 title ts pkg hreg0 e he
    obtain ⟨p, msg, -, hr, -, -, hp, -, -⟩ := deploy_shape env reg0 title ts pkg
    rw [hr] at he
    rcases mem_regSet _ _ _ _ he with he2 | he2
    · rw [he2]
      intro hh
      rw [hp] at hh
      simp at hh
    · exact hreg0 e he2
  · intro r id r2 hr hstop e he
    unfold stopProject at hstop
    cases hget : regGet r id with
    | none =>
      rw [hget] at hstop
      exact Except.noConfusion hstop
    | some p =>
      rw [hget] at hstop
      dsimp only at hstop
      cases hproc : p.process with
      | none =>
        rw [hproc] at hstop
        dsimp only at hstop
        injection hstop with hstop
        subst hstop
        exact hr e he
      | some hdl =>
        rw [hproc] at hstop
        dsimp only at hstop
        injection hstop with hstop
        subst hstop
        rcases mem_regSet _ _ _ _ he with he2 | he2
        · rw [he2]
          intro _
          exact Or.inr rfl
        · exact hr e he2
  · intro res hres e he
    unfold closeEvent at he
    cases hh : res.hasCloseHandler with
    | false =>
      rw [hh] at he
      simp only [Bool.false_eq_true, if_false] at he
      exact hres e he
    | true =>
      rw [hh] at he
      simp only [if_pos rfl] at he
      cases hr : res.result with
      | error msg =>
        rw [hr] at he
        exact hres e he
      | ok p =>
        rw [hr] at he
        simp only [] at he
        rcases mem_regSet _ _ _ _ he with he2 | he2
        · rw [he2]
          intro _
          exact Or.inr rfl
        · exact hres e he2

/-- C2 amended, witness: stopping the concrete running project app-1 only
rewrites its status field. -/
theorem stop_keeps_handle_witness :
    stopProject [("app-1", c2proj)] "app-1" =
      Except.ok (regSet [("app-1", c2proj)] "app-1"
        { c2proj with status := Status.stopped }) :=
  stop_keeps_handle.1 [("app-1", c2proj)] "app-1" c2proj 42 (by rfl) (by rfl)

/-- C4: when every stage succeeds the registry sees exactly the status
sequence creating, installing, starting, running; when any stage fails the
observed sequence is an error-free prefix closed by error, no close
handler is registered, and the spontaneous-exit transition is a no-op, so
error is terminal for the automated pipeline. -/
theorem deploy_status_sequence (env : DeployEnv) (reg0 : Registry)
    (title : List Char) (ts : Nat) (pkg : List (String × String)) :
    (∀ p, (deployLocally env reg0 title ts pkg).result = Except.ok p →
       (deployLocally env reg0 title ts pkg).trace =
         [Status.creating, Status.installing, Status.starting, Status.running]) ∧
    (∀ msg, (deployLocally env reg0 title ts pkg).result = Except.error msg →
       (∃ pre, (deployLocally env reg0 title ts pkg).trace = pre ++ [Status.error] ∧
          Status.error ∉ pre) ∧
       closeEvent (deployLocally env reg0 title ts pkg) =
         deployLocally env reg0 title ts pkg) := by
  obtain ⟨p, msg, hres, -, -, -, -, ⟨pre, htr, hne, -⟩, hh⟩ :=
    deploy_shape env reg0 title ts pkg
  constructor
  · intro q hq
    rw [hres] at hq
    exact Except.noConfusion hq
  · intro msg2 _
    refine ⟨⟨pre, htr, hne⟩, ?_⟩
    unfold closeEvent
    rw [hh]
    simp

/-- A deploy environment in which every stage the environment controls
succeeds (the dev-server launch itself always faults in the source). -/
def okEnv : DeployEnv :=
  { structureOk := true, writeOk := fun _ => true,
    widgetListing := Except.ok ["PainScale.tsx", "index.ts", "README.md"],
    installOk := true, portAvail := fun p => p == 3001 }

/-- okEnv with a failing dependency installation. -/
def installFailEnv : DeployEnv := { okEnv with installOk := false }

/-- C4 witness: a concrete install failure ends the trace at error and the
spontaneous-exit transition is a no-op there (the success branch of the
theorem is vacuous: the faulting dev-server launch makes Except.ok
unreachable, so its hypothesis admits no concrete instance). -/
theorem deploy_status_sequence_witness :
    closeEvent (deployLocally installFailEnv [] ['p', 'c'] 5 [("package.json", "x")]) =
      deployLocally installFailEnv [] ['p', 'c'] 5 [("package.json", "x")] :=
  ((deploy_status_sequence installFailEnv [] ['p', 'c'] 5
      [("package.json", "x")]).2 "npm install failed" (by rfl)).2

/-- C6: every pipeline failure is caught once at the deployLocally
boundary: the failure message is stored in the error field of the (still
registered) record together with status error, while the same error is
re-raised to the caller (the hypothesis is the re-raised result). -/
theorem deploy_error_recorded (env : DeployEnv) (reg0 : Registry)
    (title : List Char) (ts : Nat) (pkg : List (String × String)) (msg : String)
    (h : (deployLocally env reg0 title ts pkg).result = Except.error msg) :
    ((regGet (deployLocally env reg0 title ts pkg).registry
        (projectIdStr title ts)).map (fun p => (p.status, p.errMsg))) =
      some (Status.error, some msg) := by
  obtain ⟨p, msg2, hres, hr, hs, hm, -, -, -⟩ := deploy_shape env reg0 title ts pkg
  rw [h] at hres
  injection hres with hres
  subst hres
  rw [hr, regGet_regSet_self]
  simp [hs, hm]

/-- C6 witness: the concrete install failure is recorded on the record
registered under the derived project id. -/
theorem deploy_error_recorded_witness :
    ((regGet (deployLocally installFailEnv [] ['p', 'c'] 5
        [("package.json", "x")]).registry (projectIdStr ['p', 'c'] 5)).map
      (fun p => (p.status, p.errMsg))) =
      some (Status.error, some "npm install failed") :=
  deploy_error_recorded installFailEnv [] ['p', 'c'] 5 [("package.json", "x")]
    "npm install failed" (by rfl)

/-! Write-stage lemmas for the staging asymmetry. -/

lemma writeAux_all_ok (writeOk : Nat → Bool) :
    ∀ (pkg : List (String × String)) (i : Nat),
      (∀ j, j < pkg.length → writeOk (i + j) = true) →
      writeProjectFilesAux writeOk i pkg = (pkg.map Prod.fst, Except.ok ()) := by
  intro pkg
  induction pkg with
  | nil => intro i _; rfl
  | cons hd rest ih =>
    intro i h
    obtain ⟨fp, content⟩ := hd
    have h0 : writeOk i = true := by
      have := h 0 (by simp)
      simpa using this
    have hrest : ∀ j, j < rest.length → writeOk (i + 1 + j) = true := by
      intro j hj
      have := h (j + 1) (by simp; omega)
      rw [show i + 1 + j = i + (j + 1) by omega]
      exact this
    rw [writeProjectFilesAux, if_pos h0, ih (i + 1) hrest]
    simp

lemma writeAux_fail (writeOk : Nat → Bool) :
    ∀ (pkg : List (String × String)) (i k : Nat) (fp content : String),
      (∀ j, j < k → writeOk (i + j) = true) →
      writeOk (i + k) = false →
      pkg.get? k = some (fp, content) →
      writeProjectFilesAux writeOk i pkg =
        ((pkg.take k).map Prod.fst, Except.error ("write failed: " ++ fp)) := by
  intro pkg
  induction pkg with
  | nil =>
    intro i k fp content _ _ h3
    simp at h3
  | cons hd rest ih =>
    intro i k fp content h1 h2 h3
    obtain ⟨fp2, c2⟩ := hd
    cases k with
    | zero =>
      simp only [List.get?] at h3
      injection h3 with h3
      injection h3 with e1 e2
      subst e1
      subst e2
      have h0 : writeOk i = false := by simpa using h2
      rw [writeProjectFilesAux, if_neg (by simp [h0])]
      simp
    | succ k =>
      have h0 : writeOk i = true := by
        have := h1 0 (by omega)
        simpa using this
      have h1b : ∀ j, j < k → writeOk (i + 1 + j) = true := by
        intro j hj
        have := h1 (j + 1) (by omega)
        rw [show i + 1 + j = i + (j + 1) by omega]
        exact this
      have h2b : writeOk (i + 1 + k) = false := by
        rw [show i + 1 + k = i + (k + 1) by omega]
        exact h2
      have h3b : rest.get? k = some (fp, content) := by simpa using h3
      rw [writeProjectFilesAux, if_pos h0, ih (i + 1) k fp content h1b h2b h3b]
      simp

/-- okEnv with the widget source directory missing. -/
def widgetFailEnv : DeployEnv :=
  { okEnv with widgetListing := Except.error "ENOENT widgets" }

/-- okEnv in which the second bundle write fails. -/
def writeFailEnv : DeployEnv := { okEnv with writeOk := fun i => i == 0 }

/-- C8 counterexample: at the claim stated scenario - widget source
directory missing, every other stage healthy - the deployment does NOT
reach status running: the dev-server launch faults, so it ends at error
with the ReferenceError message. -/
theorem widget_failure_not_running_cex :
    (deployLocally widgetFailEnv [] ['p', 'c'] 5 [("package.json", "x")]).result =
      Except.error devServerTdzError ∧
    Status.running ∉
      (deployLocally widgetFailEnv [] ['p', 'c'] 5 [("package.json", "x")]).trace := by
  refine ⟨rfl, ?_⟩
  decide

/-- C8 amended: the staging asymmetry holds - copyWidgetLibrary swallows
its failure (returning normally with only a logged message) and a failing
widget listing still lets the deployment continue past staging through
install and port allocation into the start stage (with no widget files
staged), while a filesystem error while writing the bundle aborts the
deployment at once, propagates the error to the caller, and leaves the
partial writes in place - but no deployment can reach status running: the
dev-server launch always faults with the ReferenceError, so the
widget-failure run also ends at error. -/
theorem staging_failure_asymmetry (e : String) (env : DeployEnv)
    (reg0 : Registry) (title : List Char) (ts : Nat)
    (pkg : List (String × String)) (k : Nat) (fp content : String) :
    copyWidgetLibrary (Except.error e) = ([], some e) ∧
    (env.widgetListing = Except.error e →
     env.structureOk = true →
     (∀ j, j < pkg.length → env.writeOk j = true) →
     env.installOk = true →
     env.portAvail defaultStartPort = true →
     (deployLocally env reg0 title ts pkg).trace =
       [Status.creating, Status.installing, Status.starting, Status.error] ∧
     (deployLocally env reg0 title ts pkg).widgetFiles = [] ∧
     (deployLocally env reg0 title ts pkg).result =
       Except.error devServerTdzError) ∧
    (env.structureOk = true →
     (∀ j, j < k → env.writeOk j = true) →
     env.writeOk k = false →
     pkg.get? k = some (fp, content) →
     (deployLocally env reg0 title ts pkg).result =
       Except.error ("write failed: " ++ fp) ∧
     (deployLocally env reg0 title ts pkg).files = (pkg.take k).map Prod.fst) ∧
    Status.running ∉ (deployLocally env reg0 title ts pkg).trace := by
  refine ⟨rfl, ?_, ?_, ?_⟩
  · intro hw hstruct hwr hinst hport
    have hwrite : writeProjectFiles env.writeOk pkg =
        (pkg.map Prod.fst, Except.ok ()) := by
      unfold writeProjectFiles
      exact writeAux_all_ok env.writeOk pkg 0 (by simpa using hwr)
    have hfind : findAvailablePort env.portAvail defaultStartPort =
        Except.ok defaultStartPort := by
      unfold findAvailablePort
      rw [(findPortAux_some_iff env.portAvail 100 defaultStartPort
            defaultStartPort).2
          ⟨le_refl _, by omega, hport, fun q hq1 hq2 => absurd hq1 (by omega)⟩]
    unfold deployLocally
    rw [hstruct, hwrite, hw, hinst, hfind]
    exact ⟨rfl, rfl, rfl⟩
  · intro hstruct hwr hk hget
    have hwrite : writeProjectFiles env.writeOk pkg =
        ((pkg.take k).map Prod.fst, Except.error ("write failed: " ++ fp)) := by
      unfold writeProjectFiles
      exact writeAux_fail env.writeOk pkg 0 k fp content (by simpa using hwr)
        (by simpa using hk) hget
    unfold deployLocally
    rw [hstruct, hwrite]
    exact ⟨rfl, rfl⟩
  · obtain ⟨p, msg, -, -, -, -, -, ⟨pre, htr, -, hnr⟩, -⟩ :=
      deploy_shape env reg0 title ts pkg
    rw [htr]
    intro hmem
    rcases List.mem_append.mp hmem with hm2 | hm2
    · exact hnr hm2
    · rw [List.mem_singleton] at hm2
      exact absurd hm2 (by decide)

/-- C8 amended, witness: the widget-failure deployment still runs through
install and start (ending with the launch fault, no widget files), the
failing second write aborts with the write error keeping the first file,
and running never appears in a trace. -/
theorem staging_failure_asymmetry_witness :
    copyWidgetLibrary (Except.error "ENOENT widgets") =
      ([], some "ENOENT widgets") ∧
    (deployLocally widgetFailEnv [] ['p', 'c'] 5 [("package.json", "x")]).trace =
      [Status.creating, Status.installing, Status.starting, Status.error] ∧
    (deployLocally widgetFailEnv [] ['p', 'c'] 5 [("package.json", "x")]).widgetFiles = [] ∧
    (deployLocally writeFailEnv [] ['p', 'c'] 5
        [("package.json", "x"), ("src/app/page.tsx", "y")]).result =
      Except.error ("write failed: " ++ "src/app/page.tsx") ∧
    (deployLocally writeFailEnv [] ['p', 'c'] 5
        [("package.json", "x"), ("src/app/page.tsx", "y")]).files =
      ["package.json"] ∧
    Status.running ∉
      (deployLocally okEnv [] ['p', 'c'] 5 [("package.json", "x")]).trace := by
  have h2 := (staging_failure_asymmetry "ENOENT widgets" widgetFailEnv []
      ['p', 'c'] 5 [("package.json", "x")] 0 "" "").2.1 rfl rfl
      (by
        intro j hj
        have : j = 0 := by simpa using hj
        subst this
        rfl)
      rfl rfl
  have h3 := (staging_failure_asymmetry "zz" writeFailEnv [] ['p', 'c'] 5
      [("package.json", "x"), ("src/app/page.tsx", "y")] 1 "src/app/page.tsx"
      "y").2.2.1 rfl
      (by
        intro j hj
        have : j = 0 := by omega
        subst this
        rfl)
      rfl rfl
  have h4 := (staging_failure_asymmetry "zz" okEnv [] ['p', 'c'] 5
      [("package.json", "x")] 0 "" "").2.2.2
  exact ⟨rfl, h2.1, h2.2.1, h3.1, h3.2, h4⟩

/-- C7: code bug.  Every dev-server launch rejects immediately with the
ReferenceError raised while evaluating the spawn options (the block-scoped
process binding shadows the global and is read in its temporal dead zone):
no child process is spawned, the 30-second timer is never set, nothing is
killed, and neither the startup-timeout rejection nor the exit-code
rejection can ever occur. -/
theorem startDevServer_faults (projectPath : String) (port : Nat) :
    (startDevServer projectPath port).result = Except.error devServerTdzError ∧
    (startDevServer projectPath port).spawned = false ∧
    (startDevServer projectPath port).timerSet = false ∧
    (startDevServer projectPath port).killed = false :=
  ⟨rfl, rfl, rfl, rfl⟩

/-! Reaper lemmas (C9). -/

lemma regGet_regErase_none (r : Registry) (pid id : String)
    (h : regGet r id = none) : regGet (regErase r pid) id = none := by
  by_cases hp : pid = id
  · subst hp
    exact regGet_regErase_self r pid
  · rw [regGet_regErase_ne r pid id hp]
    exact h

lemma cleanupAux_killed_mono (now maxAge : Int) :
    ∀ (ids : List String) (st : CleanupState) (h : Nat),
      h ∈ st.killed → h ∈ (cleanupAux now maxAge ids st).killed := by
  intro ids
  induction ids with
  | nil => intro st h hh; exact hh
  | cons pid rest ih =>
    intro st h hh
    simp only [cleanupAux]
    cases hg : regGet st.registry pid with
    | none => exact ih st h hh
    | some p =>
      dsimp only
      by_cases hc : now - p.createdAt > maxAge
      · rw [if_pos hc]
        refine ih _ h ?_
        cases hpp : p.process with
        | none => exact hh
        | some hdl => exact List.mem_append_left _ hh
      · rw [if_neg hc]
        exact ih st h hh

lemma cleanupAux_absent (now maxAge : Int) :
    ∀ (ids : List String) (st : CleanupState) (id : String),
      regGet st.registry id = none → id ∉ st.dirs →
      regGet (cleanupAux now maxAge ids st).registry id = none ∧
      id ∉ (cleanupAux now maxAge ids st).dirs := by
  intro ids
  induction ids with
  | nil => intro st id h1 h2; exact ⟨h1, h2⟩
  | cons pid rest ih =>
    intro st id h1 h2
    simp only [cleanupAux]
    cases hg : regGet st.registry pid with
    | none => exact ih st id h1 h2
    | some p =>
      dsimp only
      by_cases hc : now - p.createdAt > maxAge
      · rw [if_pos hc]
        refine ih _ id ?_ ?_
        · exact regGet_regErase_none st.registry pid id h1
        · intro hmem
          exact h2 (List.mem_of_mem_filter hmem)
      · rw [if_neg hc]
        exact ih st id h1 h2

lemma cleanupAux_removes (now maxAge : Int) :
    ∀ (ids : List String) (st : CleanupState) (id : String) (p : GeneratedProject),
      id ∈ ids → regGet st.registry id = some p →
      now - p.createdAt > maxAge →
      regGet (cleanupAux now maxAge ids st).registry id = none ∧
      id ∉ (cleanupAux now maxAge ids st).dirs ∧
      (∀ h, p.process = some h → h ∈ (cleanupAux now maxAge ids st).killed) := by
  intro ids
  induction ids with
  | nil =>
    intro st id p hin _ _
    exact absurd hin (List.not_mem_nil id)
  | cons pid rest ih =>
    intro st id p hin hget hage
    simp only [cleanupAux]
    by_cases hpid : pid = id
    · subst hpid
      rw [hget]
      dsimp only
      rw [if_pos hage]
      have habs := cleanupAux_absent now maxAge rest
        { registry := regErase st.registry pid,
          dirs := st.dirs.filter (fun d => d ≠ pid),
          killed := killAdd st.killed p.process } pid
        (regGet_regErase_self st.registry pid)
        (by
          intro hmem
          have := List.of_mem_filter hmem
          simp at this)
      refine ⟨habs.1, habs.2, ?_⟩
      intro h hpp
      refine cleanupAux_killed_mono now maxAge rest _ h ?_
      simp only [killAdd, hpp]
      exact List.mem_append_right _ (List.mem_singleton.mpr rfl)
    · have hin2 : id ∈ rest := by
        rcases List.mem_cons.mp hin with h | h
        · exact absurd h.symm hpid
        · exact h
      cases hg : regGet st.registry pid with
      | none => exact ih st id p hin2 hget hage
      | some q =>
        dsimp only
        by_cases hc : now - q.createdAt > maxAge
        · rw [if_pos hc]
          refine ih _ id p hin2 ?_ hage
          rw [regGet_regErase_ne st.registry pid id hpid]
          exact hget
        · rw [if_neg hc]
          exact ih st id p hin2 hget hage

lemma cleanupAux_preserves (now maxAge : Int) :
    ∀ (ids : List String) (st : CleanupState) (id : String) (p : GeneratedProject),
      regGet st.registry id = some p → id ∈ st.dirs →
      ¬(now - p.createdAt > maxAge) →
      regGet (cleanupAux now maxAge ids st).registry id = some p ∧
      id ∈ (cleanupAux now maxAge ids st).dirs := by
  intro ids
  induction ids with
  | nil => intro st id p hget hdir _; exact ⟨hget, hdir⟩
  | cons pid rest ih =>
    intro st id p hget hdir hage
    simp only [cleanupAux]
    cases hg : regGet st.registry pid with
    | none => exact ih st id p hget hdir hage
    | some q =>
      dsimp only
      by_cases hpid : pid = id
      · subst hpid
        rw [hget] at hg
        injection hg with e
        subst e
        rw [if_neg hage]
        exact ih st pid p hget hdir hage
      · by_cases hc : now - q.createdAt > maxAge
        · rw [if_pos hc]
          refine ih _ id p ?_ ?_ hage
          · rw [regGet_regErase_ne st.registry pid id hpid]
            exact hget
          · refine List.mem_filter.mpr ⟨hdir, ?_⟩
            simp
            exact fun h => hpid h.symm
        · rw [if_neg hc]
          exact ih st id p hget hdir hage

/-- C9: for a registered record whose directory is listed, one sweep
removes the record (registry entry gone, directory gone, live process
killed) exactly when its age now - createdAt strictly exceeds maxAge, and
preserves both the entry and the directory otherwise, so age maxAge - 1 is
kept and age maxAge + 1 is removed. -/
theorem reaper_age_boundary (now maxAge : Int) (st : CleanupState)
    (id : String) (p : GeneratedProject)
    (hdir : id ∈ st.dirs) (hreg : regGet st.registry id = some p) :
    (now - p.createdAt > maxAge →
       regGet (cleanupOldProjects now maxAge st).registry id = none ∧
       id ∉ (cleanupOldProjects now maxAge st).dirs ∧
       (∀ h, p.process = some h →
          h ∈ (cleanupOldProjects now maxAge st).killed)) ∧
    (now - p.createdAt ≤ maxAge →
       regGet (cleanupOldProjects now maxAge st).registry id = some p ∧
       id ∈ (cleanupOldProjects now maxAge st).dirs) := by
  constructor
  · intro hage
    exact cleanupAux_removes now maxAge st.dirs st id p hdir hreg hage
  · intro hage
    exact cleanupAux_preserves now maxAge st.dirs st id p hreg hdir (by omega)

/-- A record one unit older than the maximum age at sweep time 1011. -/
def reaperOld : GeneratedProject :=
  { id := "old-app-1", name := "Old", path := "generated-apps/old-app-1",
    port := none, process := some 9, status := Status.running, url := none,
    errMsg := none, createdAt := 1000 }

/-- A record one unit younger than the maximum age at sweep time 1011. -/
def reaperNew : GeneratedProject :=
  { reaperOld with
      id := "new-app-1",
      path := "generated-apps/new-app-1",
      createdAt := 1002 }

def reaperSt : CleanupState :=
  { registry := [("old-app-1", reaperOld), ("new-app-1", reaperNew)],
    dirs := ["old-app-1", "new-app-1"], killed := [] }

/-- C9 witness: with maxAge 10 at time 1011, the record of age 11 is
removed (and its process 9 killed) while the record of age 9 survives. -/
theorem reaper_age_boundary_witness :
    (regGet (cleanupOldProjects 1011 10 reaperSt).registry "old-app-1" = none ∧
     "old-app-1" ∉ (cleanupOldProjects 1011 10 reaperSt).dirs ∧
     9 ∈ (cleanupOldProjects 1011 10 reaperSt).killed) ∧
    (regGet (cleanupOldProjects 1011 10 reaperSt).registry "new-app-1" =
       some reaperNew ∧
     "new-app-1" ∈ (cleanupOldProjects 1011 10 reaperSt).dirs) := by
  constructor
  · have h := (reaper_age_boundary 1011 10 reaperSt "old-app-1" reaperOld
      (by decide) (by rfl)).1 (by decide)
    exact ⟨h.1, h.2.1, h.2.2 9 rfl⟩
  · exact (reaper_age_boundary 1011 10 reaperSt "new-app-1" reaperNew
      (by decide) (by rfl)).2 (by decide)

/-- C10 witness: the sanitized name of the title Pain Clinic is short,
its member p is a name character, and the separator hyphen of the derived
id is no path separator. -/
theorem generateProjectName_safe_witness :
    (generateProjectName
      ['P', 'a', 'i', 'n', ' ', 'C', 'l', 'i', 'n', 'i', 'c']).length ≤ 50 ∧
    isNameChar 'p' = true ∧ ('-' ≠ '/' ∧ '-' ≠ '\\') :=
  ⟨(generateProjectName_safe
      ['P', 'a', 'i', 'n', ' ', 'C', 'l', 'i', 'n', 'i', 'c'] 7).1,
   (generateProjectName_safe
      ['P', 'a', 'i', 'n', ' ', 'C', 'l', 'i', 'n', 'i', 'c'] 7).2.1 'p'
     (by decide),
   (generateProjectName_safe
      ['P', 'a', 'i', 'n', ' ', 'C', 'l', 'i', 'n', 'i', 'c'] 7).2.2 '-'
     (by decide)⟩

end CareCanvas
